import Mathlib

/-!
Shallow embedding of the Shelterluv-to-Slack vaccine notification scripts
(`src/scripts/checkVaccines.js` and the two unnamed variant scripts,
`src/unnamed/part_000` and `src/unnamed/part_001`), together with theorems
about the temporal classifier, family classifier, bucketing, reconciliation
and per-family rollup logic.

Modelling conventions:
- JavaScript numbers that hold instants (milliseconds since epoch) and
  day offsets are modelled as rationals; the millisecond quantities the
  scripts manipulate are integers well inside the range where double
  arithmetic is exact, and the single division by 86400000 cannot round a
  non-boundary value onto a window boundary (the nearest representable
  neighbours of 14 and 30 are over six orders of magnitude closer than the
  smallest nonzero millisecond-grid offset), so rational arithmetic and the
  scripts' double arithmetic order the comparisons identically.
- A JavaScript value that feeds `unixStringToDate` is modelled by `JsInput`
  (absent/undefined, a string, or a finite number); `jsToNumber` models the
  `Number(...)` coercion on the decimal-literal strings the feed uses
  (optional surrounding whitespace, optional sign, digits with an optional
  fraction part); a conversion whose result is not a finite number is
  modelled as `none`.
- The scripts call `new Date()` inside `classifyByDueWindow`, so each
  classification call samples the ambient clock.  The sampled instant is an
  explicit `now` argument here, and list-processing code that makes one
  classification call per record is parameterised by a clock `clk : Nat → ℚ`
  giving the instant sampled by the i-th classification call.
-/

namespace Shelterluv

/-- A JavaScript value arriving in a feed field: absent (`undefined`/`null`),
a string, or a finite number. -/
inductive JsInput where
  | absent
  | str (s : String)
  | num (q : ℚ)
deriving DecidableEq, Repr

/-- JavaScript truthiness of a `JsInput`: `undefined`, `null`, the empty
string and the number 0 are falsy. -/
def truthy : JsInput → Bool
  | .absent => false
  | .str s => !(s == "")
  | .num q => !(q == 0)

/-- Whitespace accepted (and trimmed) by the JavaScript `Number` coercion. -/
def isJsSpace (c : Char) : Bool :=
  c == ' ' || c == '\t' || c == '\n' || c == '\r'

/-- Value of a decimal digit character, `none` for a non-digit. -/
def digitVal (c : Char) : Option ℕ :=
  if c.isDigit then some (c.toNat - 48) else none

/-- Accumulate decimal digits left to right; `none` if a non-digit occurs. -/
def readDigits : ℕ → List Char → Option ℕ
  | acc, [] => some acc
  | acc, c :: cs =>
    match digitVal c with
    | some d => readDigits (10 * acc + d) cs
    | none => none

/-- Unsigned decimal literal `digits[.digits]` with at least one digit in
total, as a rational.  `none` when the shape is not such a literal. -/
def readDecimal (cs : List Char) : Option ℚ :=
  let intPart := cs.takeWhile (fun c => c.isDigit)
  let rest := cs.dropWhile (fun c => c.isDigit)
  match rest with
  | [] =>
    if intPart.isEmpty then none
    else (readDigits 0 intPart).map (fun n => (n : ℚ))
  | '.' :: frac =>
    if intPart.isEmpty && frac.isEmpty then none
    else
      match readDigits 0 intPart, readDigits 0 frac with
      | some ip, some fp => some ((ip : ℚ) + (fp : ℚ) / (10 : ℚ) ^ frac.length)
      | _, _ => none
  | _ => none

/-- The JavaScript `Number(string)` coercion restricted to the decimal
literals the Shelterluv feed carries: surrounding whitespace is trimmed, a
whitespace-only string converts to 0, an optional sign precedes
`digits[.digits]`; every other string (including `NaN`/`Infinity` spellings
and exponent or hex forms, which are never finite epoch-second payloads in
this feed) is modelled as a non-finite result, `none`. -/
def jsStringToNumber (s : String) : Option ℚ :=
  let cs := ((s.toList.dropWhile (fun c => isJsSpace c)).reverse.dropWhile
    (fun c => isJsSpace c)).reverse
  match cs with
  | [] => some 0
  | '+' :: rest => readDecimal rest
  | '-' :: rest => (readDecimal rest).map (fun q => -q)
  | _ => readDecimal cs

/-- The JavaScript `Number(value)` coercion on a `JsInput`; `none` models a
non-finite result (`Number(undefined)` is `NaN`). -/
def jsToNumber : JsInput → Option ℚ
  | .absent => none
  | .str s => jsStringToNumber s
  | .num q => some q

/-- From `unixStringToDate` (src/scripts/checkVaccines.js lines 22-27, and
identically in both variant scripts): a falsy input gives `null`; a
non-finite `Number(str)` gives `null`; otherwise the resolved instant is
`seconds * 1000` milliseconds since epoch (the `Date` value is modelled by
its millisecond timestamp). -/
def unixStringToDate (str : JsInput) : Option ℚ :=
  if truthy str = false then none
  else
    match jsToNumber str with
    | none => none
    | some seconds => some (seconds * 1000)

/-- The five due-window statuses. -/
inductive Status where
  | overdue
  | needsAttention
  | upcoming
  | current
  | unknown
deriving DecidableEq, Repr

/-- `DAYS_BEFORE_DUE` (src/scripts/checkVaccines.js line 6): outer window. -/
def DAYS_BEFORE_DUE : ℚ := 30

/-- `TWO_WEEKS_BEFORE_DUE` (src/scripts/checkVaccines.js line 7). -/
def TWO_WEEKS_BEFORE_DUE : ℚ := 14

/-- Result of `classifyByDueWindow`: status, signed fractional day offset,
and the resolved scheduled-for instant (milliseconds since epoch). -/
structure Classification where
  status : Status
  diffDays : Option ℚ
  date : Option ℚ
deriving DecidableEq, Repr

/-- From `classifyByDueWindow` (src/scripts/checkVaccines.js lines 208-229,
identical in both variants).  The JavaScript function samples the clock with
`new Date()` on every call; `now` is the instant that call sampled, in
milliseconds since epoch. -/
def classifyByDueWindow (now : ℚ) (scheduledForStr : JsInput) : Classification :=
  match unixStringToDate scheduledForStr with
  | none => ⟨.unknown, none, none⟩
  | some date =>
    let diffMs := date - now
    let diffDays := diffMs / (1000 * 60 * 60 * 24)
    if diffDays < 0 then ⟨.overdue, some diffDays, some date⟩
    else if diffDays ≤ TWO_WEEKS_BEFORE_DUE then ⟨.needsAttention, some diffDays, some date⟩
    else if diffDays ≤ DAYS_BEFORE_DUE ∧ TWO_WEEKS_BEFORE_DUE < diffDays then
      ⟨.upcoming, some diffDays, some date⟩
    else ⟨.current, some diffDays, some date⟩

/-- The four vaccine families. -/
inductive Family where
  | rabies
  | dhpp_dapp
  | bordetella
  | other
deriving DecidableEq, Repr

/-- JavaScript `String.prototype.toLowerCase` on the ASCII product names the
classifier receives. -/
def jsToLowerCase (s : String) : String :=
  String.mk (s.toList.map Char.toLower)

/-- Needle-before-haystack check that a list starts with another list,
used to model `String.prototype.includes`. -/
def charsStartWith : List Char → List Char → Bool
  | [], _ => true
  | _ :: _, [] => false
  | a :: as, b :: bs => a == b && charsStartWith as bs

/-- Whether `needle` occurs as a contiguous run inside the second list. -/
def charsContain (needle : List Char) : List Char → Bool
  | [] => charsStartWith needle []
  | c :: rest => charsStartWith needle (c :: rest) || charsContain needle rest

/-- JavaScript `s.includes(pat)`. -/
def strIncludes (s pat : String) : Bool :=
  charsContain pat.toList s.toList

/-- The rabies-family keyword test of `classifyVaccineType`
(src/scripts/checkVaccines.js line 181), on the lower-cased product name. -/
def matchesRabies (p : String) : Bool :=
  strIncludes p "rabies" || strIncludes p "rabvac"

/-- The DHPP/DAPP-family keyword test of `classifyVaccineType`
(src/scripts/checkVaccines.js lines 186-194), on the lower-cased name. -/
def matchesDhpp (p : String) : Bool :=
  strIncludes p "dhpp" || strIncludes p "dapp" || strIncludes p "da2pp" ||
    strIncludes p "da2ppv" || strIncludes p "dappv" ||
    strIncludes p "vanguard dapp" || strIncludes p "nobivac canine 1-dappv"

/-- The bordetella-family keyword test of `classifyVaccineType`
(src/scripts/checkVaccines.js line 199), on the lower-cased name. -/
def matchesBordetella (p : String) : Bool :=
  strIncludes p "bordetella" || strIncludes p "trucan b"

/-- From `classifyVaccineType` (src/scripts/checkVaccines.js lines 177-204,
identical in src/unnamed/part_000 lines 70-94): lower-case the product name
(`(product || '').toLowerCase()`, so an absent name is treated as the empty
string) and test the three keyword families in priority order. -/
def classifyVaccineType (product : Option String) : Family :=
  let p := jsToLowerCase (product.getD "")
  if matchesRabies p then .rabies
  else if matchesDhpp p then .dhpp_dapp
  else if matchesBordetella p then .bordetella
  else .other

/-- A raw vaccine record as the feeds deliver it: the fields the scripts
read. -/
structure RawVaccine where
  id : ℕ
  animal_id : ℕ
  product : Option String
  manufacturer : Option String
  lot : Option String
  scheduled_for : JsInput
deriving DecidableEq, Repr

/-- A canonical record: the `base` / `normalized` object literal built in
`bucketScheduledVaccines` (src/scripts/checkVaccines.js lines 241-250) and in
`main` (lines 521-530). -/
structure CanonicalRecord where
  vaccineId : ℕ
  animalId : ℕ
  product : Option String
  manufacturer : Option String
  lot : Option String
  scheduledFor : Option ℚ
  diffDays : Option ℚ
  status : Status
deriving DecidableEq, Repr

/-- Build the canonical record for a raw record, classifying its
`scheduled_for` against the instant `now` sampled by that classification
call (the object literals at src/scripts/checkVaccines.js lines 241-250 and
521-530). -/
def normalizeRecord (now : ℚ) (v : RawVaccine) : CanonicalRecord :=
  let c := classifyByDueWindow now v.scheduled_for
  ⟨v.id, v.animal_id, v.product, v.manufacturer, v.lot, c.date, c.diffDays, c.status⟩

/-- The five window-status buckets returned by `bucketScheduledVaccines`
(src/scripts/checkVaccines.js lines 231-266, src/unnamed/part_000 lines
121-156). -/
structure Buckets where
  overdue : List CanonicalRecord
  upcoming : List CanonicalRecord
  needsAttention : List CanonicalRecord
  current : List CanonicalRecord
  unknown : List CanonicalRecord
deriving DecidableEq, Repr

/-- Place a canonical record at the front of the bucket named by its status
(the `if/else` chain at src/scripts/checkVaccines.js lines 252-262; used
head-first so that recursion preserves the scripts' push order). -/
def consByStatus (r : CanonicalRecord) (B : Buckets) : Buckets :=
  match r.status with
  | .overdue => { B with overdue := r :: B.overdue }
  | .needsAttention => { B with needsAttention := r :: B.needsAttention }
  | .upcoming => { B with upcoming := r :: B.upcoming }
  | .current => { B with current := r :: B.current }
  | .unknown => { B with unknown := r :: B.unknown }

/-- The loop of `bucketScheduledVaccines`, record `i` classified against the
instant `clk i` sampled by its `classifyByDueWindow` call. -/
def bucketGo (clk : ℕ → ℚ) : ℕ → List RawVaccine → Buckets
  | _, [] => ⟨[], [], [], [], []⟩
  | i, v :: rest => consByStatus (normalizeRecord (clk i) v) (bucketGo clk (i + 1) rest)

/-- `bucketScheduledVaccines` (src/scripts/checkVaccines.js lines 231-266):
classify every record and partition the normalized records into the five
status buckets.  `clk i` is the clock value sampled by the i-th
classification call of the pass. -/
def bucketScheduledVaccines (clk : ℕ → ℚ) (vaccines : List RawVaccine) : Buckets :=
  bucketGo clk 0 vaccines

/-- The normalized records of a pass in input order (for stating that
bucketing drops nothing). -/
def normalizedList (clk : ℕ → ℚ) : ℕ → List RawVaccine → List CanonicalRecord
  | _, [] => []
  | i, v :: rest => normalizeRecord (clk i) v :: normalizedList clk (i + 1) rest

/-- The four buckets of the `bucketScheduledVaccines` variant in
src/unnamed/part_001 (lines 176-207), which has no `unknown` bucket. -/
structure BucketsP1 where
  overdue : List CanonicalRecord
  upcoming : List CanonicalRecord
  needsAttention : List CanonicalRecord
  current : List CanonicalRecord
deriving DecidableEq, Repr

/-- Bucket placement of the src/unnamed/part_001 variant (lines 195-203):
the `if/else if` chain has no final `else`, so a record whose status is
none of the four named ones is not placed anywhere. -/
def consByStatusP1 (r : CanonicalRecord) (B : BucketsP1) : BucketsP1 :=
  match r.status with
  | .overdue => { B with overdue := r :: B.overdue }
  | .needsAttention => { B with needsAttention := r :: B.needsAttention }
  | .upcoming => { B with upcoming := r :: B.upcoming }
  | .current => { B with current := r :: B.current }
  | .unknown => B

/-- The loop of the src/unnamed/part_001 `bucketScheduledVaccines`. -/
def bucketGoP1 (clk : ℕ → ℚ) : ℕ → List RawVaccine → BucketsP1
  | _, [] => ⟨[], [], [], []⟩
  | i, v :: rest => consByStatusP1 (normalizeRecord (clk i) v) (bucketGoP1 clk (i + 1) rest)

/-- `bucketScheduledVaccines` as written in src/unnamed/part_001 lines
176-207: four buckets, `unknown`-status records silently dropped. -/
def bucketScheduledVaccinesP1 (clk : ℕ → ℚ) (vaccines : List RawVaccine) : BucketsP1 :=
  bucketGoP1 clk 0 vaccines

/-- A per-dog record set: the five per-dog buckets built by
`groupVaccinesByDog` and enriched in `main` (src/scripts/checkVaccines.js
lines 269-310 and 501-557). -/
structure Dog where
  animalId : ℕ
  name : String
  photoUrl : Option String
  overdue : List CanonicalRecord
  needsAttention : List CanonicalRecord
  upcoming : List CanonicalRecord
  current : List CanonicalRecord
  unknown : List CanonicalRecord
deriving DecidableEq, Repr

/-- The concatenation `[...dog.overdue, ...dog.needsAttention,
...dog.upcoming, ...dog.current, ...(dog.unknown || [])]` used both to seed
`knownIds` (src/scripts/checkVaccines.js lines 506-514) and as `allVaccines`
in `buildSlackPayloadForDog` (lines 348-354). -/
def allVaccinesOfDog (dog : Dog) : List CanonicalRecord :=
  dog.overdue ++ dog.needsAttention ++ dog.upcoming ++ dog.current ++ dog.unknown

/-- The identifier set `knownIds` seeded from a dog's buckets
(src/scripts/checkVaccines.js lines 506-514); a list whose membership models
the JavaScript `Set`. -/
def knownIds (dog : Dog) : List ℕ :=
  (allVaccinesOfDog dog).map (fun v => v.vaccineId)

/-- Append a normalized record to the end of the dog bucket named by its
status (the `push` chain at src/scripts/checkVaccines.js lines 532-543). -/
def pushByStatus (dog : Dog) (r : CanonicalRecord) : Dog :=
  match r.status with
  | .overdue => { dog with overdue := dog.overdue ++ [r] }
  | .needsAttention => { dog with needsAttention := dog.needsAttention ++ [r] }
  | .upcoming => { dog with upcoming := dog.upcoming ++ [r] }
  | .current => { dog with current := dog.current ++ [r] }
  | .unknown => { dog with unknown := dog.unknown ++ [r] }

/-- The per-animal reconciliation loop of `main` (src/scripts/checkVaccines.js
lines 516-546): a feed-(b) record whose identifier is already known is
skipped before any classification call; an unknown record is classified
(consuming the next clock sample `clk j`), normalized, pushed into its
bucket, and its identifier added to the known set. -/
def mergeLoop (clk : ℕ → ℚ) : ℕ → Dog → List ℕ → List RawVaccine → Dog
  | _, dog, _, [] => dog
  | j, dog, known, v :: rest =>
    if v.id ∈ known then mergeLoop clk j dog known rest
    else mergeLoop clk (j + 1) (pushByStatus dog (normalizeRecord (clk j) v))
      (v.id :: known) rest

/-- Merge the per-animal feed (b) into a dog's already-classified buckets,
seeding the known-identifier set from those buckets
(src/scripts/checkVaccines.js lines 501-546). -/
def mergeFeedB (clk : ℕ → ℚ) (dog : Dog) (feedB : List RawVaccine) : Dog :=
  mergeLoop clk 0 dog (knownIds dog) feedB

/-- The comparison inside the `reduce` that picks the soonest scheduled
record (src/scripts/checkVaccines.js lines 415-419): a missing scheduled-for
instant counts as `Infinity`, so `schedLt b a` holds exactly when `b`
resolves strictly sooner than `a`. -/
def schedLt (b a : Option ℚ) : Bool :=
  match b, a with
  | none, _ => false
  | some _, none => true
  | some bq, some aq => decide (bq < aq)

/-- The `reduce` callback `(a, b) => (bt < at ? b : a)`: keep the
accumulator on a tie or when the candidate is not strictly sooner. -/
def pickSooner (a b : CanonicalRecord) : CanonicalRecord :=
  if schedLt b.scheduledFor a.scheduledFor then b else a

/-- The `reduce((a, b) => bt < at ? b : a)` rollup pick
(src/scripts/checkVaccines.js lines 414-419, src/unnamed/part_000 lines
445-449): JavaScript `reduce` without an initial value starts from the first
element, so an empty list yields nothing (the scripts guard with
`length > 0`). -/
def soonestScheduled (l : List CanonicalRecord) : Option CanonicalRecord :=
  match l with
  | [] => none
  | a :: rest => some (rest.foldl pickSooner a)

/-- The same-family scheduled candidates of a dog:
`allVaccines.filter((v) => classifyVaccineType(v.product) === key)`
(src/scripts/checkVaccines.js lines 406-408). -/
def vaccinesForType (dog : Dog) (fam : Family) : List CanonicalRecord :=
  (allVaccinesOfDog dog).filter (fun v => classifyVaccineType v.product == fam)

/-- The "next due" record the rollup selects for a dog and family, when any
same-family scheduled record exists. -/
def nextDueForFamily (dog : Dog) (fam : Family) : Option CanonicalRecord :=
  soonestScheduled (vaccinesForType dog fam)

/-- The day count the Slack payload renders for the selected record
(src/scripts/checkVaccines.js lines 426-461): `Math.floor(Math.abs(d))` for
an overdue record, `Math.ceil(d)` for the three forward-looking statuses,
nothing for an unknown-status record or a missing day offset. -/
def renderedDayCount (soonest : CanonicalRecord) : Option ℤ :=
  match soonest.status with
  | .overdue =>
    match soonest.diffDays with
    | some d => some ⌊|d|⌋
    | none => none
  | .unknown => none
  | _ =>
    match soonest.diffDays with
    | some d => some ⌈d⌉
    | none => none

/-! ### Helper lemmas about the temporal classifier -/

/-- A parse failure makes `classifyByDueWindow` return the `unknown`
classification by a normal return. -/
lemma classify_unknown_of_unparsed (now : ℚ) (s : JsInput)
    (h : unixStringToDate s = none) :
    classifyByDueWindow now s = ⟨.unknown, none, none⟩ := by
  simp [classifyByDueWindow, h]

/-- When the timestamp parses, `classifyByDueWindow` is the four-way window
split on the signed fractional day offset `(t - now) / 86400000`. -/
lemma classifyByDueWindow_of_parsed (now t : ℚ) (s : JsInput)
    (h : unixStringToDate s = some t) :
    classifyByDueWindow now s =
      (if (t - now) / 86400000 < 0 then
        ⟨.overdue, some ((t - now) / 86400000), some t⟩
      else if (t - now) / 86400000 ≤ 14 then
        ⟨.needsAttention, some ((t - now) / 86400000), some t⟩
      else if (t - now) / 86400000 ≤ 30 ∧ 14 < (t - now) / 86400000 then
        ⟨.upcoming, some ((t - now) / 86400000), some t⟩
      else ⟨.current, some ((t - now) / 86400000), some t⟩) := by
  have e : (1000 * 60 * 60 * 24 : ℚ) = 86400000 := by norm_num
  simp only [classifyByDueWindow, h, TWO_WEEKS_BEFORE_DUE, DAYS_BEFORE_DUE, e]

/-! ### C1: the window partition on the signed day offset -/

/-- C1.  For every scheduled input whose timestamp parses to the instant `t`,
the window status is determined solely by `d = (t - now) / 86400000`,
with the windows in the source's evaluation order: `d < 0` is `overdue`,
`0 ≤ d ≤ 14` is `needsAttention`, `14 < d ≤ 30` is `upcoming`, and `30 < d`
is `current`; in particular `d = 0` and `d = 14` are `needsAttention` and
`d = 30` is `upcoming`. -/
theorem dueWindow_partition (now t : ℚ) (s : JsInput)
    (h : unixStringToDate s = some t) :
    (classifyByDueWindow now s).diffDays = some ((t - now) / 86400000) ∧
    (classifyByDueWindow now s).date = some t ∧
    ((classifyByDueWindow now s).status = .overdue ↔ (t - now) / 86400000 < 0) ∧
    ((classifyByDueWindow now s).status = .needsAttention ↔
      0 ≤ (t - now) / 86400000 ∧ (t - now) / 86400000 ≤ 14) ∧
    ((classifyByDueWindow now s).status = .upcoming ↔
      14 < (t - now) / 86400000 ∧ (t - now) / 86400000 ≤ 30) ∧
    ((classifyByDueWindow now s).status = .current ↔ 30 < (t - now) / 86400000) := by
  rw [classifyByDueWindow_of_parsed now t s h]
  split_ifs with h1 h2 h3
  · refine ⟨rfl, rfl, by simpa using h1, ?_, ?_, ?_⟩
    · constructor
      · intro hc
        exact absurd hc (by simp)
      · rintro ⟨ha, _⟩
        exact absurd h1 (by linarith)
    · constructor
      · intro hc
        exact absurd hc (by simp)
      · rintro ⟨ha, _⟩
        exact absurd h1 (by linarith)
    · constructor
      · intro hc
        exact absurd hc (by simp)
      · intro ha
        exact absurd h1 (by linarith)
  · refine ⟨rfl, rfl, ?_, ?_, ?_, ?_⟩
    · constructor
      · intro hc
        exact absurd hc (by simp)
      · intro ha
        exact absurd ha h1
    · exact iff_of_true rfl ⟨le_of_not_lt h1, h2⟩
    · constructor
      · intro hc
        exact absurd hc (by simp)
      · rintro ⟨ha, _⟩
        exact absurd h2 (by linarith)
    · constructor
      · intro hc
        exact absurd hc (by simp)
      · intro ha
        exact absurd h2 (by linarith)
  · refine ⟨rfl, rfl, ?_, ?_, ?_, ?_⟩
    · constructor
      · intro hc
        exact absurd hc (by simp)
      · intro ha
        exact absurd ha h1
    · constructor
      · intro hc
        exact absurd hc (by simp)
      · rintro ⟨_, hb⟩
        exact absurd hb h2
    · exact iff_of_true rfl ⟨h3.2, h3.1⟩
    · constructor
      · intro hc
        exact absurd hc (by simp)
      · intro ha
        exact absurd h3.1 (by linarith)
  · have h14 : 14 < (t - now) / 86400000 := lt_of_not_le h2
    have h30 : 30 < (t - now) / 86400000 := by
      by_contra hc
      exact h3 ⟨le_of_not_lt hc, h14⟩
    refine ⟨rfl, rfl, ?_, ?_, ?_, ?_⟩
    · constructor
      · intro hc
        exact absurd hc (by simp)
      · intro ha
        exact absurd ha h1
    · constructor
      · intro hc
        exact absurd hc (by simp)
      · rintro ⟨_, hb⟩
        exact absurd hb h2
    · constructor
      · intro hc
        exact absurd hc (by simp)
      · rintro ⟨_, hb⟩
        exact absurd hb (by linarith)
    · exact iff_of_true rfl h30

/-- Witness for C1: at `now = 0` the record scheduled for epoch-second
1209600 (exactly 14 days) parses, its day offset is 14, and the boundary
lands in `needsAttention`, not `upcoming` or `current`. -/
theorem dueWindow_partition_witness :
    (classifyByDueWindow 0 (.str "1209600")).diffDays =
      some ((1209600000 - 0) / 86400000) ∧
    (classifyByDueWindow 0 (.str "1209600")).date = some 1209600000 ∧
    ((classifyByDueWindow 0 (.str "1209600")).status = .overdue ↔
      (1209600000 - 0 : ℚ) / 86400000 < 0) ∧
    ((classifyByDueWindow 0 (.str "1209600")).status = .needsAttention ↔
      0 ≤ (1209600000 - 0 : ℚ) / 86400000 ∧ (1209600000 - 0 : ℚ) / 86400000 ≤ 14) ∧
    ((classifyByDueWindow 0 (.str "1209600")).status = .upcoming ↔
      14 < (1209600000 - 0 : ℚ) / 86400000 ∧ (1209600000 - 0 : ℚ) / 86400000 ≤ 30) ∧
    ((classifyByDueWindow 0 (.str "1209600")).status = .current ↔
      30 < (1209600000 - 0 : ℚ) / 86400000) := by
  have hd : jsStringToNumber "1209600" = some 1209600 := by
    simp +decide [jsStringToNumber, readDecimal, readDigits, digitVal, isJsSpace]
  have h : unixStringToDate (.str "1209600") = some 1209600000 := by
    simp [unixStringToDate, truthy, jsToNumber, hd]
    norm_num
  exact dueWindow_partition 0 1209600000 (.str "1209600") h

/-! ### C4: parse failure degrades to the unknown classification -/

/-- C4.  A missing, empty, or non-finite scheduled-for input makes the
classifier return status `unknown` with null day offset and null resolved
date, as a normal return value (the embedding is a total function). -/
theorem unknown_on_parse_failure (now : ℚ) (s : JsInput)
    (h : s = .absent ∨ s = .str "" ∨ jsToNumber s = none) :
    classifyByDueWindow now s = ⟨.unknown, none, none⟩ := by
  apply classify_unknown_of_unparsed
  rcases h with h | h | h
  · subst h
    rfl
  · subst h
    rfl
  · unfold unixStringToDate
    split
    · rfl
    · rw [h]

/-- Witness for C4: the non-numeric string "abc" is classified `unknown`
with null day offset and null date. -/
theorem unknown_on_parse_failure_witness :
    classifyByDueWindow 0 (.str "abc") = ⟨.unknown, none, none⟩ :=
  unknown_on_parse_failure 0 (.str "abc") (Or.inr (Or.inr (by decide)))

/-! ### C5: the family classifier is total and order-sensitive -/

/-- C5.  The family classifier is total on nullable product names and
returns exactly one of the four families by testing the lower-cased name
against the keyword families in priority order, first match winning; a
null or empty product name yields `other`. -/
theorem familyClassifier_priority (product : Option String) :
    (classifyVaccineType product = .rabies ↔
      matchesRabies (jsToLowerCase (product.getD "")) = true) ∧
    (classifyVaccineType product = .dhpp_dapp ↔
      matchesRabies (jsToLowerCase (product.getD "")) = false ∧
        matchesDhpp (jsToLowerCase (product.getD "")) = true) ∧
    (classifyVaccineType product = .bordetella ↔
      matchesRabies (jsToLowerCase (product.getD "")) = false ∧
        matchesDhpp (jsToLowerCase (product.getD "")) = false ∧
        matchesBordetella (jsToLowerCase (product.getD "")) = true) ∧
    (classifyVaccineType product = .other ↔
      matchesRabies (jsToLowerCase (product.getD "")) = false ∧
        matchesDhpp (jsToLowerCase (product.getD "")) = false ∧
        matchesBordetella (jsToLowerCase (product.getD "")) = false) ∧
    classifyVaccineType none = .other ∧
    classifyVaccineType (some "") = .other := by
  cases h1 : matchesRabies (jsToLowerCase (product.getD "")) <;>
    cases h2 : matchesDhpp (jsToLowerCase (product.getD "")) <;>
    cases h3 : matchesBordetella (jsToLowerCase (product.getD "")) <;>
    simp +decide [classifyVaccineType, h1, h2, h3]

/-- The string "0" is truthy and decodes to the epoch instant. -/
lemma unixStringToDate_zero : unixStringToDate (.str "0") = some 0 := by
  have hd : jsStringToNumber "0" = some 0 := by
    simp +decide [jsStringToNumber, readDecimal, readDigits, digitVal, isJsSpace]
  simp [unixStringToDate, truthy, jsToNumber, hd]

/-! ### C10: truthiness decides parseability, and "0" is the epoch -/

/-- C10.  The timestamp decoder rejects every falsy input (absent, empty
string, the number 0) and those records classify `unknown`, while the truthy
string "0" resolves to the 1970 epoch instant, so such a record classifies
`overdue` for every captured now after the epoch. -/
theorem falsy_rejected_epochString_overdue (now : ℚ) (h : 0 < now) :
    unixStringToDate .absent = none ∧
    unixStringToDate (.str "") = none ∧
    unixStringToDate (.num 0) = none ∧
    classifyByDueWindow now .absent = ⟨.unknown, none, none⟩ ∧
    classifyByDueWindow now (.str "") = ⟨.unknown, none, none⟩ ∧
    classifyByDueWindow now (.num 0) = ⟨.unknown, none, none⟩ ∧
    unixStringToDate (.str "0") = some 0 ∧
    (classifyByDueWindow now (.str "0")).status = .overdue := by
  have hz : unixStringToDate (.num 0) = none := by
    simp [unixStringToDate, truthy]
  have hzero : unixStringToDate (.str "0") = some 0 := unixStringToDate_zero
  have hneg : (0 - now) / 86400000 < 0 := by
    apply div_neg_of_neg_of_pos
    · linarith
    · norm_num
  refine ⟨rfl, rfl, hz, classify_unknown_of_unparsed now _ rfl,
    classify_unknown_of_unparsed now _ rfl, classify_unknown_of_unparsed now _ hz,
    hzero, ?_⟩
  rw [classifyByDueWindow_of_parsed now 0 _ hzero, if_pos hneg]

/-- Witness for C10: at `now = 1` (one millisecond after the epoch) the
conjunction holds, with the "0" record overdue. -/
theorem falsy_rejected_epochString_overdue_witness :
    unixStringToDate .absent = none ∧
    unixStringToDate (.str "") = none ∧
    unixStringToDate (.num 0) = none ∧
    classifyByDueWindow 1 .absent = ⟨.unknown, none, none⟩ ∧
    classifyByDueWindow 1 (.str "") = ⟨.unknown, none, none⟩ ∧
    classifyByDueWindow 1 (.num 0) = ⟨.unknown, none, none⟩ ∧
    unixStringToDate (.str "0") = some 0 ∧
    (classifyByDueWindow 1 (.str "0")).status = .overdue :=
  falsy_rejected_epochString_overdue 1 (by norm_num)

/-! ### C9: bucketing partitions its input (five-bucket variant); the
four-bucket variant of src/unnamed/part_001 drops unknown records -/

/-- The five-bucket loop places every normalized record in exactly the
bucket named by its status and drops nothing. -/
lemma bucketGo_spec (clk : ℕ → ℚ) (vs : List RawVaccine) : ∀ i : ℕ,
    (bucketGo clk i vs).overdue =
      (normalizedList clk i vs).filter (fun r => r.status == .overdue) ∧
    (bucketGo clk i vs).needsAttention =
      (normalizedList clk i vs).filter (fun r => r.status == .needsAttention) ∧
    (bucketGo clk i vs).upcoming =
      (normalizedList clk i vs).filter (fun r => r.status == .upcoming) ∧
    (bucketGo clk i vs).current =
      (normalizedList clk i vs).filter (fun r => r.status == .current) ∧
    (bucketGo clk i vs).unknown =
      (normalizedList clk i vs).filter (fun r => r.status == .unknown) ∧
    (bucketGo clk i vs).overdue.length + (bucketGo clk i vs).needsAttention.length +
      (bucketGo clk i vs).upcoming.length + (bucketGo clk i vs).current.length +
      (bucketGo clk i vs).unknown.length = vs.length := by
  induction vs with
  | nil =>
    intro i
    exact ⟨rfl, rfl, rfl, rfl, rfl, rfl⟩
  | cons v rest ih =>
    intro i
    obtain ⟨h1, h2, h3, h4, h5, h6⟩ := ih (i + 1)
    have hlen : (bucketGo clk i (v :: rest)).overdue.length +
        (bucketGo clk i (v :: rest)).needsAttention.length +
        (bucketGo clk i (v :: rest)).upcoming.length +
        (bucketGo clk i (v :: rest)).current.length +
        (bucketGo clk i (v :: rest)).unknown.length = (v :: rest).length := by
      cases hs : (normalizeRecord (clk i) v).status <;>
        simp [bucketGo, consByStatus, hs] <;> omega
    refine ⟨?_, ?_, ?_, ?_, ?_, hlen⟩ <;>
      cases hs : (normalizeRecord (clk i) v).status <;>
      simp +decide [bucketGo, normalizedList, consByStatus, hs, h1, h2, h3, h4, h5,
        List.filter_cons]

/-- C9 (amended).  In the five-bucket `bucketScheduledVaccines`
(src/scripts/checkVaccines.js, src/unnamed/part_000), every input record
lands in exactly the bucket matching its classified status, and the five
buckets together hold all input records — none is dropped. -/
theorem bucket_partition (clk : ℕ → ℚ) (vs : List RawVaccine) :
    (bucketScheduledVaccines clk vs).overdue =
      (normalizedList clk 0 vs).filter (fun r => r.status == .overdue) ∧
    (bucketScheduledVaccines clk vs).needsAttention =
      (normalizedList clk 0 vs).filter (fun r => r.status == .needsAttention) ∧
    (bucketScheduledVaccines clk vs).upcoming =
      (normalizedList clk 0 vs).filter (fun r => r.status == .upcoming) ∧
    (bucketScheduledVaccines clk vs).current =
      (normalizedList clk 0 vs).filter (fun r => r.status == .current) ∧
    (bucketScheduledVaccines clk vs).unknown =
      (normalizedList clk 0 vs).filter (fun r => r.status == .unknown) ∧
    (bucketScheduledVaccines clk vs).overdue.length +
      (bucketScheduledVaccines clk vs).needsAttention.length +
      (bucketScheduledVaccines clk vs).upcoming.length +
      (bucketScheduledVaccines clk vs).current.length +
      (bucketScheduledVaccines clk vs).unknown.length = vs.length :=
  bucketGo_spec clk vs 0

/-- Counterexample to C9 as stated: the `bucketScheduledVaccines` variant of
src/unnamed/part_001 (one of the claim's two cited code sites) returns only
four buckets, and on a single record with an absent scheduled-for timestamp
(status `unknown`) all four come back empty — the record is dropped, so the
union of the returned buckets does not contain every input record. -/
theorem bucket_dropsUnknown_p1_cx :
    bucketScheduledVaccinesP1 (fun _ => 0)
        [⟨1, 7, some "Rabvac 3 Rabies", none, none, .absent⟩] =
      ⟨[], [], [], []⟩ ∧
    ([⟨1, 7, some "Rabvac 3 Rabies", none, none, .absent⟩] :
      List RawVaccine).length = 1 := by
  constructor
  · have hu : classifyByDueWindow ((fun _ => (0 : ℚ)) 0) JsInput.absent =
        ⟨.unknown, none, none⟩ := classify_unknown_of_unparsed _ _ rfl
    simp [bucketScheduledVaccinesP1, bucketGoP1, consByStatusP1, normalizeRecord, hu]
  · rfl

/-! ### Helper lemmas about the reconciliation loop -/

/-- Pushing a record into a dog keeps exactly the old identifiers plus the
pushed record's identifier. -/
lemma mem_knownIds_pushByStatus (dog : Dog) (r : CanonicalRecord) (i : ℕ) :
    i ∈ knownIds (pushByStatus dog r) ↔ i = r.vaccineId ∨ i ∈ knownIds dog := by
  cases hr : r.status <;>
    (simp [pushByStatus, hr, knownIds, allVaccinesOfDog] ; aesop)

/-- Pushing a record into a dog retains every record the dog already has. -/
lemma mem_allVaccines_pushByStatus (dog : Dog) (r x : CanonicalRecord)
    (hx : x ∈ allVaccinesOfDog dog) : x ∈ allVaccinesOfDog (pushByStatus dog r) := by
  cases hr : r.status <;>
    (simp [pushByStatus, hr, allVaccinesOfDog] at hx ⊢ ; tauto)

/-- The reconciliation loop never loses an identifier the dog already has. -/
lemma mem_knownIds_mergeLoop (clk : ℕ → ℚ) (l : List RawVaccine) :
    ∀ j dog known i, i ∈ knownIds dog → i ∈ knownIds (mergeLoop clk j dog known l) := by
  induction l with
  | nil =>
    intro j dog known i hi
    exact hi
  | cons v rest ih =>
    intro j dog known i hi
    by_cases hv : v.id ∈ known
    · rw [mergeLoop, if_pos hv]
      exact ih j dog known i hi
    · rw [mergeLoop, if_neg hv]
      exact ih (j + 1) _ _ i ((mem_knownIds_pushByStatus dog _ i).mpr (Or.inr hi))

/-- The reconciliation loop never loses a record the dog already has. -/
lemma mem_allVaccines_mergeLoop (clk : ℕ → ℚ) (l : List RawVaccine) :
    ∀ j dog known x, x ∈ allVaccinesOfDog dog →
      x ∈ allVaccinesOfDog (mergeLoop clk j dog known l) := by
  induction l with
  | nil =>
    intro j dog known x hx
    exact hx
  | cons v rest ih =>
    intro j dog known x hx
    by_cases hv : v.id ∈ known
    · rw [mergeLoop, if_pos hv]
      exact ih j dog known x hx
    · rw [mergeLoop, if_neg hv]
      exact ih (j + 1) _ _ x (mem_allVaccines_pushByStatus dog _ x hx)

/-- A feed-(b) list whose identifiers are all already known leaves the dog
untouched. -/
lemma mergeLoop_skip_all (clk : ℕ → ℚ) (l : List RawVaccine) :
    ∀ j dog known, (∀ v ∈ l, v.id ∈ known) → mergeLoop clk j dog known l = dog := by
  induction l with
  | nil =>
    intro j dog known _
    rfl
  | cons v rest ih =>
    intro j dog known h
    rw [mergeLoop, if_pos (h v (List.mem_cons_self v rest))]
    exact ih j dog known (fun w hw => h w (List.mem_cons_of_mem v hw))

/-- After the loop runs, every identifier of the processed list is known to
the resulting dog (it was either known at entry, hence known to the dog by
the entry invariant, or freshly inserted). -/
lemma mergeLoop_covers (clk : ℕ → ℚ) (l : List RawVaccine) :
    ∀ j dog known, (∀ i ∈ known, i ∈ knownIds dog) →
      ∀ v ∈ l, v.id ∈ knownIds (mergeLoop clk j dog known l) := by
  induction l with
  | nil =>
    intro j dog known _ v hv
    exact absurd hv (List.not_mem_nil v)
  | cons v rest ih =>
    intro j dog known hk w hw
    by_cases hv : v.id ∈ known
    · rw [mergeLoop, if_pos hv]
      rcases List.mem_cons.mp hw with hw | hw
      · subst hw
        exact mem_knownIds_mergeLoop clk rest j dog known w.id (hk w.id hv)
      · exact ih j dog known hk w hw
    · rw [mergeLoop, if_neg hv]
      have hk' : ∀ i ∈ v.id :: known,
          i ∈ knownIds (pushByStatus dog (normalizeRecord (clk j) v)) := by
        intro i hi
        rcases List.mem_cons.mp hi with hi | hi
        · exact (mem_knownIds_pushByStatus dog _ i).mpr (Or.inl hi)
        · exact (mem_knownIds_pushByStatus dog _ i).mpr (Or.inr (hk i hi))
      rcases List.mem_cons.mp hw with hw | hw
      · subst hw
        exact mem_knownIds_mergeLoop clk rest (j + 1) _ _ w.id
          (hk' w.id (List.mem_cons_self w.id known))
      · exact ih (j + 1) _ _ hk' w hw

/-- A record whose identifier is already known is discarded without any
effect: the loop result is the same as if the record were absent from the
feed, whatever its field values. -/
lemma mergeLoop_discards_known (clk : ℕ → ℚ) (v : RawVaccine)
    (l₁ : List RawVaccine) :
    ∀ l₂ j dog known, v.id ∈ known →
      mergeLoop clk j dog known (l₁ ++ v :: l₂) =
        mergeLoop clk j dog known (l₁ ++ l₂) := by
  induction l₁ with
  | nil =>
    intro l₂ j dog known h
    rw [List.nil_append, List.nil_append, mergeLoop, if_pos h]
  | cons w t ih =>
    intro l₂ j dog known h
    by_cases hw : w.id ∈ known
    · rw [List.cons_append, List.cons_append, mergeLoop, if_pos hw, mergeLoop,
        if_pos hw]
      exact ih l₂ j dog known h
    · rw [List.cons_append, List.cons_append, mergeLoop, if_neg hw, mergeLoop,
        if_neg hw]
      exact ih l₂ (j + 1) _ _ (List.mem_cons_of_mem w.id h)

/-! ### C2: feed-(a) precedence in reconciliation -/

/-- C2.  When a feed-(b) record's identifier is already present among the
dog's classified records (feed (a)), the reconciliation loop discards that
feed-(b) record entirely — merging is the same as if the record were not in
feed (b), whatever its field values — and every feed-(a) record of the dog
is retained in the merged record set. -/
theorem merge_feedA_precedence (clk : ℕ → ℚ) (dog : Dog)
    (l₁ l₂ : List RawVaccine) (v : RawVaccine) (h : v.id ∈ knownIds dog) :
    mergeFeedB clk dog (l₁ ++ v :: l₂) = mergeFeedB clk dog (l₁ ++ l₂) ∧
    ∀ r ∈ allVaccinesOfDog dog,
      r ∈ allVaccinesOfDog (mergeFeedB clk dog (l₁ ++ v :: l₂)) := by
  constructor
  · exact mergeLoop_discards_known clk v l₁ l₂ 0 dog (knownIds dog) h
  · intro r hr
    exact mem_allVaccines_mergeLoop clk (l₁ ++ v :: l₂) 0 dog (knownIds dog) r hr

/-- Witness for C2: a dog holding record id 1 (product "Rabvac 3 Rabies",
overdue) merged with a feed-(b) record of the same id but different field
values: the feed-(b) record is discarded and the dog's record retained. -/
theorem merge_feedA_precedence_witness :
    mergeFeedB (fun _ => 0)
        ⟨7, "Rico", none,
          [⟨1, 7, some "Rabvac 3 Rabies", none, none, none, none, .overdue⟩],
          [], [], [], []⟩
        ([] ++ ⟨1, 7, some "Bordetella", some "Elanco", some "L1", .absent⟩ :: []) =
      mergeFeedB (fun _ => 0)
        ⟨7, "Rico", none,
          [⟨1, 7, some "Rabvac 3 Rabies", none, none, none, none, .overdue⟩],
          [], [], [], []⟩ ([] ++ []) ∧
    ∀ r ∈ allVaccinesOfDog
        ⟨7, "Rico", none,
          [⟨1, 7, some "Rabvac 3 Rabies", none, none, none, none, .overdue⟩],
          [], [], [], []⟩,
      r ∈ allVaccinesOfDog (mergeFeedB (fun _ => 0)
        ⟨7, "Rico", none,
          [⟨1, 7, some "Rabvac 3 Rabies", none, none, none, none, .overdue⟩],
          [], [], [], []⟩
        ([] ++ ⟨1, 7, some "Bordetella", some "Elanco", some "L1", .absent⟩ :: [])) :=
  merge_feedA_precedence (fun _ => 0) _ [] []
    ⟨1, 7, some "Bordetella", some "Elanco", some "L1", .absent⟩ (by decide)

/-! ### C6: reconciliation is idempotent -/

/-- C6.  Merging the same feed-(b) list a second time (under any clock)
changes nothing: after the first merge every feed-(b) identifier is known,
so every record of the second pass is discarded and no record is ever
double-counted. -/
theorem merge_idempotent (clk clk₂ : ℕ → ℚ) (dog : Dog) (feedB : List RawVaccine) :
    mergeFeedB clk₂ (mergeFeedB clk dog feedB) feedB = mergeFeedB clk dog feedB := by
  apply mergeLoop_skip_all
  intro v hv
  exact mergeLoop_covers clk feedB 0 dog (knownIds dog) (fun i hi => hi) v hv

/-! ### Helper lemmas about the soonest-pick order -/

/-- `schedLt` is irreflexive. -/
lemma schedLt_irrefl (x : Option ℚ) : schedLt x x = false := by
  cases x <;> simp [schedLt]

/-- `schedLt` is asymmetric. -/
lemma schedLt_asymm {x y : Option ℚ} (h : schedLt x y = true) :
    schedLt y x = false := by
  cases x <;> cases y <;> simp_all [schedLt] <;> linarith

/-- `schedLt` is transitive. -/
lemma schedLt_trans {x y z : Option ℚ} (h1 : schedLt x y = true)
    (h2 : schedLt y z = true) : schedLt x z = true := by
  cases x <;> cases y <;> cases z <;> simp_all [schedLt] <;> linarith

/-- From `m` strictly sooner than `a` and `b` not strictly sooner than `a`,
`m` is strictly sooner than `b` (that is, `m < a ≤ b`). -/
lemma schedLt_of_lt_of_not_lt {m a b : Option ℚ} (h1 : schedLt m a = true)
    (h2 : schedLt b a = false) : schedLt m b = true := by
  cases m <;> cases a <;> cases b <;> simp_all [schedLt] <;> linarith

/-- The `reduce` fold returns the first element of `a :: rest` attaining the
minimum of the scheduled-for key (null keys largest): the picked element
splits the list so that everything before it is strictly later, and nothing
after it is strictly sooner. -/
lemma foldl_pickSooner_spec (rest : List CanonicalRecord) :
    ∀ a : CanonicalRecord, ∃ l₁ l₂,
      a :: rest = l₁ ++ (rest.foldl pickSooner a) :: l₂ ∧
      (∀ r ∈ l₁,
        schedLt (rest.foldl pickSooner a).scheduledFor r.scheduledFor = true) ∧
      (∀ r ∈ l₂,
        schedLt r.scheduledFor (rest.foldl pickSooner a).scheduledFor = false) := by
  induction rest with
  | nil =>
    intro a
    exact ⟨[], [], rfl, by simp, by simp⟩
  | cons b t ih =>
    intro a
    cases hb : schedLt b.scheduledFor a.scheduledFor
    · -- the accumulator survives this step
      have hstep : (b :: t).foldl pickSooner a = t.foldl pickSooner a := by
        simp [pickSooner, hb]
      obtain ⟨l₁, l₂, hsplit, hlt, hnlt⟩ := ih a
      rw [hstep]
      set m := t.foldl pickSooner a with hm
      cases l₁ with
      | nil =>
        rw [List.nil_append] at hsplit
        obtain ⟨hma, hl₂⟩ := List.cons.inj hsplit
        refine ⟨[], b :: t, ?_, by simp, ?_⟩
        · rw [List.nil_append, ← hma]
        · intro r hr
          rcases List.mem_cons.mp hr with hr | hr
          · subst hr
            rw [← hma]
            exact hb
          · exact hnlt r (hl₂ ▸ hr)
      | cons c l₁' =>
        rw [List.cons_append] at hsplit
        obtain ⟨hca, ht⟩ := List.cons.inj hsplit
        have hma : schedLt m.scheduledFor a.scheduledFor = true := by
          have h1 := hlt c (List.mem_cons_self c l₁')
          rwa [← hca] at h1
        have hmb : schedLt m.scheduledFor b.scheduledFor = true :=
          schedLt_of_lt_of_not_lt hma hb
        refine ⟨a :: b :: l₁', l₂, ?_, ?_, hnlt⟩
        · rw [List.cons_append, List.cons_append, ht]
        · intro r hr
          rcases List.mem_cons.mp hr with hr | hr
          · subst hr
            exact hma
          · rcases List.mem_cons.mp hr with hr | hr
            · subst hr
              exact hmb
            · exact hlt r (List.mem_cons_of_mem c hr)
    · -- the candidate replaces the accumulator
      have hstep : (b :: t).foldl pickSooner a = t.foldl pickSooner b := by
        simp [pickSooner, hb]
      obtain ⟨l₁, l₂, hsplit, hlt, hnlt⟩ := ih b
      rw [hstep]
      set m := t.foldl pickSooner b with hm
      have hma : schedLt m.scheduledFor a.scheduledFor = true := by
        cases l₁ with
        | nil =>
          rw [List.nil_append] at hsplit
          obtain ⟨hbm, _⟩ := List.cons.inj hsplit
          rw [← hbm]
          exact hb
        | cons c l₁' =>
          rw [List.cons_append] at hsplit
          obtain ⟨hcb, _⟩ := List.cons.inj hsplit
          have h1 := hlt c (List.mem_cons_self c l₁')
          rw [← hcb] at h1
          exact schedLt_trans h1 hb
      refine ⟨a :: l₁, l₂, ?_, ?_, hnlt⟩
      · rw [List.cons_append, ← hsplit]
      · intro r hr
        rcases List.mem_cons.mp hr with hr | hr
        · subst hr
          exact hma
        · exact hlt r hr

/-! ### C3: the rollup picks the soonest scheduled record, nulls last -/

/-- C3.  When a dog has same-family scheduled records, the rollup selects
the record with the smallest resolved scheduled-for instant, treating a
null instant as plus infinity: the selected record is a member splitting
the candidate list with everything before it strictly later (so a tie keeps
the first-encountered record), no candidate is strictly sooner, and a
dateless record is never selected while any dated candidate exists (but is
selected when every candidate is dateless, since the pick is total on
non-empty lists). -/
theorem rollup_nextDue_soonest (dog : Dog) (fam : Family)
    (h : vaccinesForType dog fam ≠ []) :
    ∃ m l₁ l₂, nextDueForFamily dog fam = some m ∧
      vaccinesForType dog fam = l₁ ++ m :: l₂ ∧
      (∀ r ∈ l₁, schedLt m.scheduledFor r.scheduledFor = true) ∧
      (∀ r ∈ vaccinesForType dog fam,
        schedLt r.scheduledFor m.scheduledFor = false) ∧
      ((∃ r ∈ vaccinesForType dog fam, r.scheduledFor ≠ none) →
        m.scheduledFor ≠ none) := by
  rcases hl : vaccinesForType dog fam with _ | ⟨a, rest⟩
  · exact absurd hl h
  · obtain ⟨l₁, l₂, hsplit, hlt, hnlt⟩ := foldl_pickSooner_spec rest a
    refine ⟨rest.foldl pickSooner a, l₁, l₂, ?_, hsplit, hlt, ?_, ?_⟩
    · simp [nextDueForFamily, soonestScheduled, hl]
    · intro r hr
      rw [hsplit] at hr
      rcases List.mem_append.mp hr with hr | hr
      · exact schedLt_asymm (hlt r hr)
      · rcases List.mem_cons.mp hr with hr | hr
        · subst hr
          exact schedLt_irrefl _
        · exact hnlt r hr
    · rintro ⟨r, hr, hrs⟩
      intro hm
      have hfalse : schedLt r.scheduledFor
          (rest.foldl pickSooner a).scheduledFor = false := by
        rw [hsplit] at hr
        rcases List.mem_append.mp hr with hr | hr
        · exact schedLt_asymm (hlt r hr)
        · rcases List.mem_cons.mp hr with hr | hr
          · subst hr
            exact schedLt_irrefl _
          · exact hnlt r hr
      rcases hq : r.scheduledFor with _ | q
      · exact hrs hq
      · rw [hq, hm] at hfalse
        simp [schedLt] at hfalse

/-- Witness for C3: a dog with two rabies-family scheduled records, one
dateless and one dated; the candidate list is non-empty, so the rollup
selects a record satisfying the first-min split, and the dated candidate
forces the selection to be dated. -/
theorem rollup_nextDue_soonest_witness :
    ∃ m l₁ l₂,
      nextDueForFamily
          ⟨7, "Rico", none,
            [⟨1, 7, some "Rabvac 3 Rabies", none, none, none, none, .unknown⟩],
            [⟨2, 7, some "Imrab Rabies", none, none, some 5000, some 2, .needsAttention⟩],
            [], [], []⟩ .rabies = some m ∧
      vaccinesForType
          ⟨7, "Rico", none,
            [⟨1, 7, some "Rabvac 3 Rabies", none, none, none, none, .unknown⟩],
            [⟨2, 7, some "Imrab Rabies", none, none, some 5000, some 2, .needsAttention⟩],
            [], [], []⟩ .rabies = l₁ ++ m :: l₂ ∧
      (∀ r ∈ l₁, schedLt m.scheduledFor r.scheduledFor = true) ∧
      (∀ r ∈ vaccinesForType
          ⟨7, "Rico", none,
            [⟨1, 7, some "Rabvac 3 Rabies", none, none, none, none, .unknown⟩],
            [⟨2, 7, some "Imrab Rabies", none, none, some 5000, some 2, .needsAttention⟩],
            [], [], []⟩ .rabies,
        schedLt r.scheduledFor m.scheduledFor = false) ∧
      ((∃ r ∈ vaccinesForType
          ⟨7, "Rico", none,
            [⟨1, 7, some "Rabvac 3 Rabies", none, none, none, none, .unknown⟩],
            [⟨2, 7, some "Imrab Rabies", none, none, some 5000, some 2, .needsAttention⟩],
            [], [], []⟩ .rabies, r.scheduledFor ≠ none) →
        m.scheduledFor ≠ none) :=
  rollup_nextDue_soonest _ .rabies (by decide)

/-! ### C7: each classification call samples its own clock -/

/-- At a sampled instant equal to the epoch, the epoch-scheduled record is
at day offset 0 and classifies `needsAttention`. -/
lemma classify_zero_at_epoch :
    (classifyByDueWindow 0 (.str "0")).status = .needsAttention := by
  rw [classifyByDueWindow_of_parsed 0 0 _ unixStringToDate_zero]
  norm_num

/-- One millisecond after the epoch, the epoch-scheduled record classifies
`overdue`. -/
lemma classify_zero_after_epoch :
    (classifyByDueWindow 1 (.str "0")).status = .overdue := by
  rw [classifyByDueWindow_of_parsed 1 0 _ unixStringToDate_zero]
  have hneg : ((0 : ℚ) - 1) / 86400000 < 0 := by norm_num
  rw [if_pos hneg]

/-- Counterexample to C7 as stated: `classifyByDueWindow` samples the clock
with `new Date()` on every call, so a pass whose clock advances by one
millisecond between its two calls classifies two identical records
differently — no single captured instant reproduces that pass (under any
single `now`, identical records land in the same bucket). -/
theorem classification_singleNow_cx :
    ¬ ∃ n : ℚ,
      bucketScheduledVaccines (fun _ => n)
          [⟨1, 7, some "Rabvac 3 Rabies", none, none, .str "0"⟩,
            ⟨1, 7, some "Rabvac 3 Rabies", none, none, .str "0"⟩] =
        bucketScheduledVaccines (fun i => if i = 0 then 0 else 1)
          [⟨1, 7, some "Rabvac 3 Rabies", none, none, .str "0"⟩,
            ⟨1, 7, some "Rabvac 3 Rabies", none, none, .str "0"⟩] := by
  rintro ⟨n, hn⟩
  rcases hs : (classifyByDueWindow n (.str "0")).status <;>
    simp [bucketScheduledVaccines, bucketGo, consByStatus, normalizeRecord, hs,
      classify_zero_at_epoch, classify_zero_after_epoch] at hn

/-- C7 (amended).  Each classification call samples its own "now"; when the
clock does not advance during a pass — every call of either run samples the
same instant `n` — sequential runs of the whole pass produce identical
buckets, statuses and day offsets. -/
theorem classification_pass_deterministic (clk₁ clk₂ : ℕ → ℚ) (n : ℚ)
    (h₁ : ∀ i, clk₁ i = n) (h₂ : ∀ i, clk₂ i = n) (vs : List RawVaccine) :
    bucketScheduledVaccines clk₁ vs = bucketScheduledVaccines clk₂ vs := by
  have hgo : ∀ (l : List RawVaccine) (i : ℕ), bucketGo clk₁ i l = bucketGo clk₂ i l := by
    intro l
    induction l with
    | nil =>
      intro i
      rfl
    | cons v rest ih =>
      intro i
      simp [bucketGo, h₁, h₂, ih (i + 1)]
  exact hgo vs 0

/-- Witness for C7 (amended): two constant clocks, written differently but
both sampling instant 3 at every call, give identical passes. -/
theorem classification_pass_deterministic_witness :
    bucketScheduledVaccines (fun _ => 3)
        [⟨1, 7, some "Rabvac 3 Rabies", none, none, .absent⟩] =
      bucketScheduledVaccines (fun _ => 2 + 1)
        [⟨1, 7, some "Rabvac 3 Rabies", none, none, .absent⟩] :=
  classification_pass_deterministic (fun _ => 3) (fun _ => 2 + 1) 3
    (fun _ => rfl) (fun _ => by norm_num) _

/-! ### C8: rendered day counts — floor for overdue, ceiling looking ahead -/

/-- The day offset of a parsed classification, in every window. -/
lemma diffDays_of_parsed (now t : ℚ) (s : JsInput)
    (h : unixStringToDate s = some t) :
    (classifyByDueWindow now s).diffDays = some ((t - now) / 86400000) := by
  rw [classifyByDueWindow_of_parsed now t s h]
  split_ifs <;> rfl

/-- C8.  For a classified record with day offset `d`: an overdue record
renders `⌊|d|⌋` days overdue — zero exactly when the overdue amount is
under one day — and a record of any forward-looking status renders `⌈d⌉`
days ahead, which is at least 1 whenever the record is due strictly after
the captured now (`d > 0`) and exactly 0 for a record due at now
(`d = 0`). -/
theorem rendered_day_counts (now : ℚ) (v : RawVaccine) (d : ℚ)
    (h : (normalizeRecord now v).diffDays = some d) :
    ((normalizeRecord now v).status = .overdue →
      renderedDayCount (normalizeRecord now v) = some ⌊|d|⌋ ∧ d < 0 ∧
        (⌊|d|⌋ = 0 ↔ -1 < d)) ∧
    ((normalizeRecord now v).status ≠ .overdue →
      renderedDayCount (normalizeRecord now v) = some ⌈d⌉ ∧ 0 ≤ d ∧
        (0 < d → 1 ≤ ⌈d⌉) ∧ (d = 0 → ⌈d⌉ = 0)) := by
  rcases hu : unixStringToDate v.scheduled_for with _ | t
  · have hun : (normalizeRecord now v).diffDays =
        (⟨.unknown, none, none⟩ : Classification).diffDays := by
      show (classifyByDueWindow now v.scheduled_for).diffDays = _
      rw [classify_unknown_of_unparsed now _ hu]
    rw [h] at hun
    simp at hun
  · have hdd : d = (t - now) / 86400000 := by
      have hstep : (normalizeRecord now v).diffDays =
          (classifyByDueWindow now v.scheduled_for).diffDays := rfl
      rw [hstep, diffDays_of_parsed now t _ hu] at h
      exact (Option.some.inj h).symm
    subst hdd
    have hn : normalizeRecord now v =
        ⟨v.id, v.animal_id, v.product, v.manufacturer, v.lot,
          (classifyByDueWindow now v.scheduled_for).date,
          (classifyByDueWindow now v.scheduled_for).diffDays,
          (classifyByDueWindow now v.scheduled_for).status⟩ := rfl
    rw [hn, classifyByDueWindow_of_parsed now t _ hu]
    split_ifs with h1 h2 h3
    · constructor
      · intro _
        refine ⟨by simp [renderedDayCount], h1, ?_⟩

        rw [abs_of_neg h1, Int.floor_eq_zero_iff]
        simp only [Set.mem_Ico]
        constructor
        · rintro ⟨_, hb⟩
          linarith
        · intro hb
          exact ⟨by linarith, by linarith⟩
      · intro hne
        simp at hne
    · constructor
      · intro habs
        simp at habs
      · intro _
        refine ⟨by simp [renderedDayCount], le_of_not_lt h1, ?_, ?_⟩
        · intro hpos
          have := Int.ceil_pos.mpr hpos
          omega
        · intro h0
          rw [h0, Int.ceil_zero]
    · constructor
      · intro habs
        simp at habs
      · intro _
        refine ⟨by simp [renderedDayCount], by linarith [h3.2], ?_, ?_⟩
        · intro hpos
          have := Int.ceil_pos.mpr hpos
          omega
        · intro h0
          rw [h0, Int.ceil_zero]
    · have h14 : (14 : ℚ) < (t - now) / 86400000 := lt_of_not_le h2
      constructor
      · intro habs
        simp at habs
      · intro _
        refine ⟨by simp [renderedDayCount], by linarith, ?_, ?_⟩
        · intro hpos
          have := Int.ceil_pos.mpr hpos
          omega
        · intro h0
          rw [h0, Int.ceil_zero]

/-- Witness for C8: at `now` half a day after the epoch, the epoch-scheduled
record is overdue by half a day and renders "0 days overdue" (floor of the
absolute offset), with the offset strictly between -1 and 0. -/
theorem rendered_day_counts_witness :
    ((normalizeRecord 43200000 ⟨1, 7, some "Rabvac 3 Rabies", none, none, .str "0"⟩).status =
        .overdue →
      renderedDayCount
          (normalizeRecord 43200000 ⟨1, 7, some "Rabvac 3 Rabies", none, none, .str "0"⟩) =
        some ⌊|((0 : ℚ) - 43200000) / 86400000|⌋ ∧
        ((0 : ℚ) - 43200000) / 86400000 < 0 ∧
        (⌊|((0 : ℚ) - 43200000) / 86400000|⌋ = 0 ↔
          (-1 : ℚ) < ((0 : ℚ) - 43200000) / 86400000)) ∧
    ((normalizeRecord 43200000 ⟨1, 7, some "Rabvac 3 Rabies", none, none, .str "0"⟩).status ≠
        .overdue →
      renderedDayCount
          (normalizeRecord 43200000 ⟨1, 7, some "Rabvac 3 Rabies", none, none, .str "0"⟩) =
        some ⌈((0 : ℚ) - 43200000) / 86400000⌉ ∧
        (0 : ℚ) ≤ ((0 : ℚ) - 43200000) / 86400000 ∧
        ((0 : ℚ) < ((0 : ℚ) - 43200000) / 86400000 →
          1 ≤ ⌈((0 : ℚ) - 43200000) / 86400000⌉) ∧
        (((0 : ℚ) - 43200000) / 86400000 = 0 →
          ⌈((0 : ℚ) - 43200000) / 86400000⌉ = 0)) :=
  rendered_day_counts 43200000 ⟨1, 7, some "Rabvac 3 Rabies", none, none, .str "0"⟩
    (((0 : ℚ) - 43200000) / 86400000)
    (by
      have hstep : (normalizeRecord 43200000
          ⟨1, 7, some "Rabvac 3 Rabies", none, none, .str "0"⟩).diffDays =
          (classifyByDueWindow 43200000 (.str "0")).diffDays := rfl
      rw [hstep, diffDays_of_parsed 43200000 0 _ unixStringToDate_zero])

end Shelterluv
